import Mathlib

/-!
# Remediation pipeline of the pull-request webhook service

A shallow embedding of `iq.go` (the function `evaluateComponents` with its two
local closures) and of `main.go` (`requestError`, `getGitHubPullRequest`,
`findComponentsFromManifest`, `addRemediationsToPR`, `handleLambdaEvent`).

Conventions of the embedding

* A Go `map[K]V` is an association list `GoMap K V`; Go leaves the iteration
  order of a map unspecified, and a `range` loop over the map is a left fold
  over the list, so a statement for every list covers every iteration order.
  A well-formed map is a list whose keys are pairwise distinct (`GoMap.WF`).
* A Go `error` is the text of its message; `(T, error)` results are pairs
  `T × Option String` where the first component is used after a failure too,
  and `Except String T` where it is not.
* Calls to `log` write diagnostics only and are left out.
* A run-time panic is an explicit outcome (`Outcome.panicked`).
-/

namespace IqMerge

/-! ## Go maps -/

/-- A Go map as an association list. -/
abbrev GoMap (K V : Type) := List (K × V)

namespace GoMap

variable {K V : Type} [DecidableEq K]

/-- The comma-ok form of `m[k]`. -/
def index : GoMap K V → K → Option V
  | [], _ => none
  | (k', v) :: rest, k => if k' = k then some v else index rest k

/-- The assignment `m[k] = v`. -/
def assign : GoMap K V → K → V → GoMap K V
  | [], k, v => [(k, v)]
  | (k', v') :: rest, k, v =>
    if k' = k then (k, v) :: rest else (k', v') :: assign rest k v

/-- The builtin `len(m)`. -/
def len (m : GoMap K V) : Nat := m.length

/-- The builtin `delete(m, k)`. -/
def delete (m : GoMap K V) (k : K) : GoMap K V :=
  m.filter (fun e => decide (e.1 ≠ k))

/-- The keys of a map are pairwise distinct. -/
def WF (m : GoMap K V) : Prop := (m.map Prod.fst).Nodup

instance (m : GoMap K V) : Decidable (WF m) := by
  unfold WF; infer_instance

end GoMap

/-- The plain form of `m[k]` on a `map[string]string`: the zero value, the
empty string, when the key is absent. -/
def stringAt (m : GoMap String String) (k : String) : String :=
  (GoMap.index m k).getD ""

/-! ## Data model -/

/-- Modelled from the spec: the declaration of the struct `component` is not
part of the two source files; the spec's data model gives its four fields in
this order (format, group, artifact, version), which is the order the
positional literal of `asComponent` fills. -/
structure component where
  format : String
  group : String
  artifact : String
  version : String
deriving DecidableEq, Repr, Inhabited

/-- The zero value of `component` (`var comp component`). -/
def component.zero : component := ⟨"", "", "", ""⟩

/-- A changed file of a pull request; `main.go` reads the two fields
`Filename` and `Patch`. -/
structure githubPullRequestFile where
  Filename : String
  Patch : String
deriving DecidableEq, Repr, Inhabited

/-- The coordinates of a policy-engine component identifier. -/
structure Coordinates where
  GroupID : String
  ArtifactID : String
  Version : String
deriving DecidableEq, Repr, Inhabited

/-- The structured identity of a policy-engine component. -/
structure ComponentIdentifier where
  Format : String
  Coordinates : Coordinates
deriving DecidableEq, Repr, Inhabited

/-- The policy engine's component (`nexusiq.Component`): the pointer field
`ComponentID`, nil or a structured identity, and the package URL. -/
structure IQComponent where
  ComponentID : Option ComponentIdentifier
  PackageURL : String
deriving DecidableEq, Repr, Inhabited

/-- One remediation variant of a decision: its remediation-type tag and the
resulting component. -/
structure RemediationVersionChange where
  remediationType : String
  component : IQComponent
deriving DecidableEq, Repr, Inhabited

/-- A remediation decision of the policy engine: zero or more variants. -/
structure Remediation where
  VersionChanges : List RemediationVersionChange
deriving DecidableEq, Repr, Inhabited

/-- The tag of the variant that clears all violations
(`nexusiq.RemediationTypeNoViolations`). -/
def RemediationTypeNoViolations : String := "next-no-violations"

/-- The build-time stage (`nexusiq.StageBuild`). -/
def StageBuild : String := "build"

/-- Modelled from the spec: the extractor `ComponentForRemediationType` belongs
to the policy-engine client library, not to the source files. Section 4.3: it
scans the decision's remediation variants for the one carrying the requested
tag and returns its component; if none exists it fails with a not-found
condition. -/
def Remediation.ComponentForRemediationType (r : Remediation) (remType : String) :
    Except String IQComponent :=
  match r.VersionChanges.find? (fun v => decide (v.remediationType = remType)) with
  | some v => .ok v.component
  | none => .error ("did not find remediation type: " ++ remType)

/-- The policy engine as `evaluateComponents` uses it: the behaviour of
`nexusiq.GetRemediationByApp(iq, component, stage, application)`, an error or
a decision. -/
abbrev IQ := IQComponent → String → String → Except String Remediation

/-- The call `nexusiq.GetRemediationByApp`. -/
def GetRemediationByApp (iq : IQ) (c : IQComponent) (stage app : String) :
    Except String Remediation :=
  iq c stage app

/-! ## iq.go -/

/-- The closure `asIQComponent` of `evaluateComponents`; the method `purl` of
`component` is not part of the source files and is a parameter. -/
def evaluateComponents.asIQComponent (purl : component → String) (c : component) :
    IQComponent × Option String :=
  (⟨none, purl c⟩, none)

/-- The closure `asComponent` of `evaluateComponents`. -/
def evaluateComponents.asComponent (c : IQComponent) : component × Option String :=
  match c.ComponentID with
  | some id =>
    (⟨id.Format, id.Coordinates.GroupID, id.Coordinates.ArtifactID, id.Coordinates.Version⟩,
      none)
  | none => (component.zero, none)

/-- The manifests of a pull request with the components they declare, by
position. -/
abbrev Manifests := GoMap githubPullRequestFile (GoMap Int component)

/-- The function `evaluateComponents`: the outer fold is the loop over the
manifests, the inner fold the loop over the components of one manifest. -/
def evaluateComponents (purl : component → String) (iq : IQ) (nexusApplication : String)
    (manifests : Manifests) : Manifests × Option String :=
  let remediations : Manifests :=
    manifests.foldl
      (fun remediations mc =>
        let remediated : GoMap Int component :=
          mc.2.foldl
            (fun remediated pc =>
              let component := (evaluateComponents.asIQComponent purl pc.2).1
              match GetRemediationByApp iq component StageBuild nexusApplication with
              | .error _ => remediated
              | .ok remediation =>
                match remediation.ComponentForRemediationType RemediationTypeNoViolations with
                | .error _ => remediated
                | .ok rcomp =>
                  GoMap.assign remediated pc.1 (evaluateComponents.asComponent rcomp).1)
            []
        if GoMap.len remediated > 0 then GoMap.assign remediations mc.1 remediated
        else remediations)
      []
  (remediations, none)

/-! ## main.go -/

/-- The fields of `events.APIGatewayProxyRequest` that `main.go` reads. -/
structure APIGatewayProxyRequest where
  Headers : GoMap String String
  QueryStringParameters : GoMap String String
  Body : String
deriving DecidableEq, Repr, Inhabited

/-- The fields of `events.APIGatewayProxyResponse` that `main.go` sets; an
unset `Body` is the empty string. -/
structure APIGatewayProxyResponse where
  StatusCode : Int
  Body : String
deriving DecidableEq, Repr, Inhabited

/-- The repository of a pull-request event. -/
structure githubRepository where
  HTMLURL : String
deriving DecidableEq, Repr, Inhabited

/-- The pull-request event; its declaration is not part of the source files,
and `main.go` reads `Repository.HTMLURL` only, for a log line. -/
structure githubPullRequest where
  Repository : githubRepository
deriving DecidableEq, Repr, Inhabited

/-- The constant `http.StatusOK`. -/
def StatusOK : Int := 200

/-- The constant `http.StatusBadRequest`. -/
def StatusBadRequest : Int := 400

/-- The constant `http.StatusInternalServerError`. -/
def StatusInternalServerError : Int := 500

/-- The functions `main.go` calls and does not define: the standard library
(`http.StatusText`, `url.QueryUnescape`, `json.Unmarshal`), the policy-engine
client constructor `nexusiq.New`, and the functions of this repository that
live in other files (`getGitHubEventType`, `getPullRequestFiles`,
`addPullRequestComment`, the method `purl`). -/
structure Env where
  statusText : Int → String
  getGitHubEventType : GoMap String String → Except String String
  queryUnescape : String → Except String String
  jsonUnmarshal : String → githubPullRequest × Option String
  getPullRequestFiles : githubPullRequest → String → Except String (List githubPullRequestFile)
  nexusiqNew : String → String → String → Except String IQ
  addPullRequestComment : githubPullRequest → String → String → Option String
  purl : component → String

/-- The remainder of the first list after the second, when the second is a
prefix of the first. -/
def dropPrefixChars : List Char → List Char → Option (List Char)
  | s, [] => some s
  | [], _ :: _ => none
  | c :: s, d :: p => if c = d then dropPrefixChars s p else none

/-- The library function `strings.TrimPrefix`. -/
def stringsTrimPrefix (s pre : String) : String :=
  match dropPrefixChars s.data pre.data with
  | some rest => String.mk rest
  | none => s

/-- The pieces of a character list between the occurrences of `sep`. -/
def splitChars (sep : Char) : List Char → List (List Char)
  | [] => [[]]
  | c :: cs =>
    if c = sep then [] :: splitChars sep cs
    else
      match splitChars sep cs with
      | [] => [[c]]
      | piece :: pieces => (c :: piece) :: pieces

/-- The library function `strings.Split` for a separator of one character. -/
def stringsSplit (s : String) (sep : Char) : List String :=
  (splitChars sep s.data).map String.mk

/-- The function `requestError`; the returned pointer is never nil. -/
def requestError (env : Env) (statusCode : Int) (message : String) :
    APIGatewayProxyResponse :=
  let body := if message = "" then env.statusText statusCode else message
  ⟨statusCode, body⟩

/-- The function `getGitHubPullRequest`; the response pointer is `none` when
it is nil. -/
def getGitHubPullRequest (env : Env) (req : APIGatewayProxyRequest) :
    githubPullRequest × Option APIGatewayProxyResponse :=
  let event : githubPullRequest := default
  match env.getGitHubEventType req.Headers with
  | .error err =>
    (event, some (requestError env StatusBadRequest
      ("could not parse request headers: " ++ err)))
  | .ok eventType =>
    if eventType = "ping" then (event, some ⟨StatusOK, ""⟩)
    else if eventType ≠ "pull_request" then
      (event, some (requestError env StatusBadRequest
        "did not receive a supported github event"))
    else
      match env.queryUnescape req.Body with
      | .error err =>
        (event, some (requestError env StatusBadRequest
          ("error during url unescape of payload: " ++ err)))
      | .ok decoded =>
        let payload := stringsTrimPrefix decoded "payload="
        match env.jsonUnmarshal payload with
        | (event, some err) =>
          (event, some (requestError env StatusBadRequest
            ("could not unmarshal payload as json: " ++ err)))
        | (event, none) => (event, none)

/-- The function `findComponentsFromManifest`: it collects the changed
`package.json` files for a log line and returns `nil, nil`. The declared type
of its first result is a slice of strings, the call site hands it to
`evaluateComponents` as the manifest mapping; the only value it takes, nil, is
the empty mapping. -/
def findComponentsFromManifest (files : List githubPullRequestFile) :
    Manifests × Option String :=
  let manifests := files.filter (fun f => decide (f.Filename = "package.json"))
  let _logged := manifests.map (fun m => (m.Filename, m.Patch))
  ([], none)

/-- The function `addRemediationsToPR`; `none` is the nil pointer. -/
def addRemediationsToPR (env : Env) (token : String) (event : githubPullRequest)
    (_remediations : Manifests) : Option APIGatewayProxyResponse :=
  match env.addPullRequestComment event token "THINGY" with
  | some _ => none
  | none => some ⟨StatusOK, ""⟩

/-- The calls of `handleLambdaEvent` that leave the process or run the
pipeline. -/
inductive Call where
  | getPullRequestFiles
  | nexusiqNew
  | evaluateComponents
  | addPullRequestComment
deriving DecidableEq, Repr

/-- The run-time panics `handleLambdaEvent` can raise. -/
inductive Panic where
  | indexOutOfRange (index length : Nat)
  | nilDereference
deriving DecidableEq, Repr

/-- How a call of `handleLambdaEvent` ends: it returns a response and an
error, or it panics. -/
inductive Outcome where
  | returned (resp : APIGatewayProxyResponse) (err : Option String)
  | panicked (p : Panic)
deriving DecidableEq, Repr

/-- The body of `handleLambdaEvent` with the pipeline it calls as a parameter;
the second component lists the calls made, in order. -/
def handleLambdaEventWith (evaluate : IQ → String → Manifests → Manifests × Option String)
    (env : Env) (req : APIGatewayProxyRequest) : Outcome × List Call :=
  match getGitHubPullRequest env req with
  | (_, some resp) => (.returned resp none, [])
  | (event, none) =>
    let token := stringAt req.QueryStringParameters "token"
    match env.getPullRequestFiles event token with
    | .error err =>
      (.returned (requestError env StatusInternalServerError
        ("could not get files from pull request: " ++ err ++ "\n")) none,
        [.getPullRequestFiles])
    | .ok files =>
      match findComponentsFromManifest files with
      | (_, some err) =>
        (.returned (requestError env StatusInternalServerError
          ("could not read files to find manifest: " ++ err ++ "\n")) none,
          [.getPullRequestFiles])
      | (components, none) =>
        let iqURL := stringAt req.QueryStringParameters "iq_server"
        let iqAuth := stringsSplit (stringAt req.QueryStringParameters "iq_auth") ':'
        match iqAuth.get? 0 with
        | none => (.panicked (.indexOutOfRange 0 iqAuth.length), [.getPullRequestFiles])
        | some user =>
          match iqAuth.get? 1 with
          | none => (.panicked (.indexOutOfRange 1 iqAuth.length), [.getPullRequestFiles])
          | some password =>
            match env.nexusiqNew iqURL user password with
            | .error err =>
              (.returned (requestError env StatusInternalServerError
                ("could not create IQ client: " ++ err ++ "\n")) none,
                [.getPullRequestFiles, .nexusiqNew])
            | .ok iq =>
              let iqApp := stringAt req.QueryStringParameters "iq_app"
              match evaluate iq iqApp components with
              | (_, some err) =>
                (.returned (requestError env StatusInternalServerError
                  ("could not evaluate components: " ++ err ++ "\n")) none,
                  [.getPullRequestFiles, .nexusiqNew, .evaluateComponents])
              | (remediations, none) =>
                match addRemediationsToPR env token event remediations with
                | none =>
                  (.panicked .nilDereference,
                    [.getPullRequestFiles, .nexusiqNew, .evaluateComponents,
                      .addPullRequestComment])
                | some resp =>
                  (.returned resp none,
                    [.getPullRequestFiles, .nexusiqNew, .evaluateComponents,
                      .addPullRequestComment])

/-- The function `handleLambdaEvent`: the body above with `evaluateComponents`
as the pipeline. -/
def handleLambdaEvent (env : Env) (req : APIGatewayProxyRequest) : Outcome × List Call :=
  handleLambdaEventWith (evaluateComponents env.purl) env req

/-! ## Concrete inputs -/

/-- The manifest `package.json`. -/
def packageJson : githubPullRequestFile := ⟨"package.json", ""⟩

/-- The component `left-pad` at a version. -/
def leftPad (version : String) : component := ⟨"npm", "", "left-pad", version⟩

/-- The policy-engine component with the structured identity of `left-pad`. -/
def leftPadIQ (version : String) : IQComponent :=
  ⟨some ⟨"npm", ⟨"", "left-pad", version⟩⟩, ""⟩

/-- A package URL for the concrete inputs. -/
def samplePurl (c : component) : String :=
  "pkg:" ++ c.format ++ "/" ++ c.artifact ++ "@" ++ c.version

/-- An engine answering every component with the same decision. -/
def constIQ (r : Remediation) : IQ := fun _ _ _ => .ok r

/-- An engine failing on every component. -/
def failingIQ : IQ := fun _ _ _ => .error "unreachable"

/-- An engine that fails on version `1.0.0` of `left-pad` and answers every
other component with a NoViolations remediation to version `1.3.0`. -/
def selectiveIQ : IQ := fun c _ _ =>
  if c.PackageURL = "pkg:npm/left-pad@1.0.0" then .error "bad gateway"
  else .ok ⟨[⟨RemediationTypeNoViolations, leftPadIQ "1.3.0"⟩]⟩

/-- An engine that reads the package URL of the request: it answers the
request for version `1.0.0` of `left-pad` with the single NoViolations variant
`left-pad 1.3.0` and rejects every other request. -/
def leftPadOnlyIQ : IQ := fun c _ _ =>
  if c.PackageURL = "pkg:npm/left-pad@1.0.0" then
    .ok ⟨[⟨RemediationTypeNoViolations, leftPadIQ "1.3.0"⟩]⟩
  else .error "unknown component"

/-- A fragment of the table behind `http.StatusText`, for the concrete
inputs. -/
def sampleStatusText (code : Int) : String :=
  if code = 200 then "OK"
  else if code = 400 then "Bad Request"
  else if code = 500 then "Internal Server Error"
  else ""

/-- An environment for the concrete inputs: the event type is the value of
the header `X-GitHub-Event`, every payload decodes, the pull request changed
`package.json`; the client constructor and the outcome of posting the comment
are given. -/
def sampleEnv (files : Except String (List githubPullRequestFile))
    (newClient : String → String → String → Except String IQ)
    (commentError : Option String) : Env :=
  ⟨sampleStatusText,
    fun headers =>
      match GoMap.index headers "X-GitHub-Event" with
      | some t => .ok t
      | none => .error "no event header",
    fun s => .ok s,
    fun _ => (default, none),
    fun _ _ => files,
    newClient,
    fun _ _ _ => commentError,
    samplePurl⟩

/-- A client constructor that succeeds. -/
def acceptClient : String → String → String → Except String IQ :=
  fun _ _ _ => .ok failingIQ

/-- A client constructor that fails and reports the credentials it was given. -/
def echoClient : String → String → String → Except String IQ :=
  fun _ user password => .error ("user=" ++ user ++ " password=" ++ password)

/-- A webhook request of the given event type with the given `iq_auth` query
parameter (`none`: the parameter is absent). -/
def sampleRequest (eventType : String) (iqAuth : Option String) : APIGatewayProxyRequest :=
  ⟨[("X-GitHub-Event", eventType)],
    [("token", "t0"), ("iq_server", "http://iq"), ("iq_app", "app")] ++
      (match iqAuth with
       | some a => [("iq_auth", a)]
       | none => []),
    "payload=%7B%7D"⟩

/-- A pipeline that fails, for the error branch of `handleLambdaEventWith`. -/
def failingPipeline : IQ → String → Manifests → Manifests × Option String :=
  fun _ _ _ => ([], some "engine unreachable")

/-! ## Reading the result and the auxiliary functions of the statements -/

/-- The comma-ok form of the nested read `R[m][p]`; a missing outer key is a
nil inner map, which has no entry. -/
def entryAt {K₁ K₂ V : Type} [DecidableEq K₁] [DecidableEq K₂]
    (R : GoMap K₁ (GoMap K₂ V)) (m : K₁) (p : K₂) : Option V :=
  (GoMap.index R m).bind (fun inner => GoMap.index inner p)

/-- A manifest mapping is well formed when the outer map and every inner map
have pairwise distinct keys. -/
def Manifests.WF (manifests : Manifests) : Prop :=
  GoMap.WF manifests ∧ ∀ mc ∈ manifests, GoMap.WF mc.2

instance (manifests : Manifests) : Decidable (Manifests.WF manifests) := by
  unfold Manifests.WF; infer_instance

/-- The input mapping without the entry at position `p₀` of manifest `m₀`. -/
def withoutEntry (manifests : Manifests) (m₀ : githubPullRequestFile) (p₀ : Int) :
    Manifests :=
  manifests.map (fun mc => if mc.1 = m₀ then (mc.1, GoMap.delete mc.2 p₀) else mc)

/-- One turn of a loop that records `f v` under the key when it is defined and
skips the entry otherwise. -/
def recordStep {K V W : Type} [DecidableEq K] (f : V → Option W)
    (acc : GoMap K W) (kv : K × V) : GoMap K W :=
  match f kv.2 with
  | none => acc
  | some w => GoMap.assign acc kv.1 w

/-- What the loop body of `evaluateComponents` records for one component:
nothing when the evaluation or the extraction fails, the converted remediation
otherwise. -/
def remediationFor (purl : component → String) (iq : IQ) (app : String) (c : component) :
    Option component :=
  match GetRemediationByApp iq (evaluateComponents.asIQComponent purl c).1 StageBuild app with
  | .error _ => none
  | .ok remediation =>
    match remediation.ComponentForRemediationType RemediationTypeNoViolations with
    | .error _ => none
    | .ok rcomp => some (evaluateComponents.asComponent rcomp).1

/-- What the outer loop of `evaluateComponents` records for one manifest: the
inner result when it is not empty. -/
def remediatedFor (purl : component → String) (iq : IQ) (app : String)
    (components : GoMap Int component) : Option (GoMap Int component) :=
  let remediated : GoMap Int component :=
    components.foldl (recordStep (remediationFor purl iq app)) []
  if GoMap.len remediated > 0 then some remediated else none

/-! ## Lemmas on Go maps and on the recording loop -/

section MapLemmas

variable {K V W : Type} [DecidableEq K]

theorem GoMap.index_assign (m : GoMap K V) (k k' : K) (v : V) :
    GoMap.index (GoMap.assign m k v) k' = if k = k' then some v else GoMap.index m k' := by
  induction m with
  | nil => simp [GoMap.assign, GoMap.index]
  | cons e rest ih =>
    obtain ⟨a, b⟩ := e
    by_cases h : a = k
    · subst h
      by_cases h' : a = k' <;> simp [GoMap.assign, GoMap.index, h']
    · by_cases h' : a = k'
      · subst h'
        have hk : ¬ k = a := fun h'' => h h''.symm
        simp [GoMap.assign, GoMap.index, h, hk]
      · simp [GoMap.assign, GoMap.index, h, h', ih]

theorem GoMap.index_eq_none_of_not_mem (m : GoMap K V) (k : K)
    (h : k ∉ m.map Prod.fst) : GoMap.index m k = none := by
  induction m with
  | nil => rfl
  | cons e rest ih =>
    obtain ⟨a, b⟩ := e
    simp only [List.map_cons, List.mem_cons, not_or] at h
    have hne : ¬ a = k := fun h' => h.1 h'.symm
    simp [GoMap.index, hne, ih h.2]

theorem GoMap.mem_of_index_eq_some (m : GoMap K V) (k : K) (v : V)
    (h : GoMap.index m k = some v) : (k, v) ∈ m := by
  induction m with
  | nil => simp [GoMap.index] at h
  | cons e rest ih =>
    obtain ⟨a, b⟩ := e
    by_cases hk : a = k
    · subst hk
      simp [GoMap.index] at h
      simp [h]
    · simp [GoMap.index, hk] at h
      exact List.mem_cons_of_mem _ (ih h)

theorem GoMap.index_eq_some_of_mem (m : GoMap K V) (hwf : GoMap.WF m) (k : K) (v : V)
    (h : (k, v) ∈ m) : GoMap.index m k = some v := by
  induction m with
  | nil => simp at h
  | cons e rest ih =>
    obtain ⟨a, b⟩ := e
    simp only [GoMap.WF, List.map_cons, List.nodup_cons] at hwf
    rcases List.mem_cons.mp h with heq | hin
    · cases heq
      simp [GoMap.index]
    · have hk : ¬ a = k := by
        intro hak
        subst hak
        exact hwf.1 (List.mem_map.mpr ⟨(a, v), hin, rfl⟩)
      simp only [GoMap.index, hk, if_false]
      exact ih hwf.2 hin

theorem GoMap.index_delete (m : GoMap K V) (k₀ k : K) :
    GoMap.index (GoMap.delete m k₀) k = if k = k₀ then none else GoMap.index m k := by
  induction m with
  | nil => simp [GoMap.delete, GoMap.index]
  | cons e rest ih =>
    obtain ⟨a, b⟩ := e
    unfold GoMap.delete at ih ⊢
    by_cases ha : a = k₀
    · subst ha
      by_cases hk : k = a
      · subst hk
        simpa using ih
      · have hk' : ¬ a = k := fun h => hk h.symm
        simpa [GoMap.index, hk, hk'] using ih
    · by_cases hk : a = k
      · subst hk
        simp [GoMap.index, ha]
      · simp only [List.filter_cons, ha, ne_eq, not_false_eq_true, decide_True, if_true,
          GoMap.index, hk, if_false]
        exact ih

theorem index_foldl_recordStep (f : V → Option W) (l : GoMap K V) (hwf : GoMap.WF l)
    (acc : GoMap K W) (k : K) :
    GoMap.index (l.foldl (recordStep f) acc) k =
      match (GoMap.index l k).bind f with
      | some w => some w
      | none => GoMap.index acc k := by
  induction l generalizing acc with
  | nil => simp [GoMap.index]
  | cons e rest ih =>
    obtain ⟨a, b⟩ := e
    simp only [GoMap.WF, List.map_cons, List.nodup_cons] at hwf
    rw [List.foldl_cons, ih hwf.2]
    by_cases hk : a = k
    · subst hk
      rw [GoMap.index_eq_none_of_not_mem rest a hwf.1]
      cases hf : f b <;> simp [GoMap.index, recordStep, hf, GoMap.index_assign]
    · cases hr : (GoMap.index rest k).bind f with
      | some w => simp [GoMap.index, hk, hr]
      | none =>
        cases hf : f b <;> simp [GoMap.index, recordStep, hf, GoMap.index_assign, hk, hr]

theorem index_foldl_recordStep_some (f : V → Option W) (l : GoMap K V)
    (acc : GoMap K W) (k : K) (w : W)
    (h : GoMap.index (l.foldl (recordStep f) acc) k = some w) :
    GoMap.index acc k = some w ∨ ∃ v, (k, v) ∈ l ∧ f v = some w := by
  induction l generalizing acc with
  | nil => left; simpa using h
  | cons e rest ih =>
    obtain ⟨a, b⟩ := e
    rw [List.foldl_cons] at h
    rcases ih _ h with hacc | ⟨v, hv, hfv⟩
    · cases hf : f b with
      | none =>
        left
        simpa [recordStep, hf] using hacc
      | some w' =>
        simp only [recordStep, hf, GoMap.index_assign] at hacc
        by_cases hk : a = k
        · subst hk
          simp only [if_true, Option.some.injEq] at hacc
          subst hacc
          exact Or.inr ⟨b, List.mem_cons_self _ _, hf⟩
        · simp only [hk, if_false] at hacc
          exact Or.inl hacc
    · exact Or.inr ⟨v, List.mem_cons_of_mem _ hv, hfv⟩

theorem foldl_recordStep_delete (f : V → Option W) (l : GoMap K V) (k₀ : K)
    (h : ∀ kv ∈ l, kv.1 = k₀ → f kv.2 = none) (acc : GoMap K W) :
    (GoMap.delete l k₀).foldl (recordStep f) acc = l.foldl (recordStep f) acc := by
  induction l generalizing acc with
  | nil => rfl
  | cons e rest ih =>
    obtain ⟨a, b⟩ := e
    have hrest : ∀ kv ∈ rest, kv.1 = k₀ → f kv.2 = none :=
      fun kv hkv => h kv (List.mem_cons_of_mem _ hkv)
    unfold GoMap.delete at ih ⊢
    by_cases ha : a = k₀
    · have hf : f b = none := h (a, b) (List.mem_cons_self _ _) ha
      simp only [List.filter_cons, ha, ne_eq, not_true_eq_false, decide_False,
        Bool.false_eq_true, if_false, List.foldl_cons]
      rw [ih hrest]
      simp [recordStep, hf]
    · simp only [List.filter_cons, ha, ne_eq, not_false_eq_true, decide_True, if_true,
        List.foldl_cons]
      exact ih hrest _

theorem index_nil_of_len_zero (m : GoMap K V) (h : ¬ GoMap.len m > 0) (k : K) :
    GoMap.index m k = none := by
  cases m with
  | nil => rfl
  | cons e rest => simp [GoMap.len] at h

end MapLemmas

/-! ## The pipeline as two recording loops -/

theorem inner_step_eq (purl : component → String) (iq : IQ) (app : String) :
    (fun (remediated : GoMap Int component) (pc : Int × component) =>
      let component := (evaluateComponents.asIQComponent purl pc.2).1
      match GetRemediationByApp iq component StageBuild app with
      | .error _ => remediated
      | .ok remediation =>
        match remediation.ComponentForRemediationType RemediationTypeNoViolations with
        | .error _ => remediated
        | .ok rcomp =>
          GoMap.assign remediated pc.1 (evaluateComponents.asComponent rcomp).1) =
      recordStep (remediationFor purl iq app) := by
  funext remediated pc
  simp only [recordStep, remediationFor]
  cases h₁ : GetRemediationByApp iq (evaluateComponents.asIQComponent purl pc.2).1
      StageBuild app with
  | error e => rfl
  | ok remediation =>
    cases h₂ : remediation.ComponentForRemediationType RemediationTypeNoViolations with
    | error e => simp only [h₂]
    | ok rcomp => simp only [h₂]

theorem evaluateComponents_eq (purl : component → String) (iq : IQ) (app : String)
    (manifests : Manifests) :
    evaluateComponents purl iq app manifests =
      (manifests.foldl (recordStep (remediatedFor purl iq app)) [], none) := by
  unfold evaluateComponents
  simp only [inner_step_eq]
  congr 1
  congr 1
  funext remediations mc
  simp only [recordStep, remediatedFor]
  split <;> rfl

theorem remediationFor_eq_some (purl : component → String) (iq : IQ) (app : String)
    (c x : component) :
    remediationFor purl iq app c = some x ↔
      ∃ r rc, iq (evaluateComponents.asIQComponent purl c).1 StageBuild app = .ok r ∧
        r.ComponentForRemediationType RemediationTypeNoViolations = .ok rc ∧
        x = (evaluateComponents.asComponent rc).1 := by
  unfold remediationFor GetRemediationByApp
  cases h : iq (evaluateComponents.asIQComponent purl c).1 StageBuild app with
  | error e => simp
  | ok r =>
    cases h' : r.ComponentForRemediationType RemediationTypeNoViolations with
    | error e => simp [h']
    | ok rc =>
      simp only [Option.some.injEq, Except.ok.injEq, exists_and_left, exists_eq_left', h']
      exact eq_comm

theorem entryAt_evaluateComponents (purl : component → String) (iq : IQ) (app : String)
    (manifests : Manifests) (hwf : Manifests.WF manifests) (m : githubPullRequestFile)
    (p : Int) :
    entryAt (evaluateComponents purl iq app manifests).1 m p =
      (entryAt manifests m p).bind (remediationFor purl iq app) := by
  rw [evaluateComponents_eq]
  simp only [entryAt]
  rw [index_foldl_recordStep _ _ hwf.1]
  cases hm : GoMap.index manifests m with
  | none => simp [GoMap.index]
  | some components =>
    have hin : (m, components) ∈ manifests := GoMap.mem_of_index_eq_some _ _ _ hm
    have hc : GoMap.WF components := hwf.2 _ hin
    have hinner := index_foldl_recordStep (remediationFor purl iq app) components hc [] p
    simp only [GoMap.index] at hinner
    simp only [Option.some_bind, remediatedFor]
    split
    · rename_i w hw
      split at hw
      · cases hw
        simp only [Option.some_bind]
        rw [hinner]
        cases (GoMap.index components p).bind (remediationFor purl iq app) <;> rfl
      · cases hw
    · rename_i hw
      split at hw
      · cases hw
      · rename_i hlen
        have hnone := index_nil_of_len_zero _ hlen p
        rw [hinner] at hnone
        simp only [GoMap.index, Option.none_bind]
        cases hb : (GoMap.index components p).bind (remediationFor purl iq app) with
        | none => rfl
        | some x => rw [hb] at hnone; cases hnone

theorem index_evaluateComponents_some (purl : component → String) (iq : IQ) (app : String)
    (manifests : Manifests) (m : githubPullRequestFile) (inner : GoMap Int component)
    (h : GoMap.index (evaluateComponents purl iq app manifests).1 m = some inner) :
    GoMap.len inner > 0 ∧ ∃ components, (m, components) ∈ manifests ∧
      inner = components.foldl (recordStep (remediationFor purl iq app)) [] := by
  rw [evaluateComponents_eq] at h
  rcases index_foldl_recordStep_some _ _ _ _ _ h with hnil | ⟨components, hin, hf⟩
  · simp [GoMap.index] at hnil
  · simp only [remediatedFor] at hf
    split at hf
    · rename_i hlen
      cases hf
      exact ⟨hlen, components, hin, rfl⟩
    · cases hf

theorem GoMap.index_cons {K V : Type} [DecidableEq K] (a k : K) (b : V)
    (rest : GoMap K V) :
    GoMap.index ((a, b) :: rest) k = if a = k then some b else GoMap.index rest k := rfl

theorem withoutEntry_cons (a m₀ : githubPullRequestFile) (components : GoMap Int component)
    (rest : Manifests) (p₀ : Int) :
    withoutEntry ((a, components) :: rest) m₀ p₀ =
      (a, if a = m₀ then GoMap.delete components p₀ else components) ::
        withoutEntry rest m₀ p₀ := by
  by_cases ha : a = m₀ <;> simp [withoutEntry, ha]

theorem entryAt_withoutEntry (manifests : Manifests) (m₀ m : githubPullRequestFile)
    (p₀ p : Int) :
    entryAt (withoutEntry manifests m₀ p₀) m p =
      if m = m₀ ∧ p = p₀ then none else entryAt manifests m p := by
  induction manifests with
  | nil => simp [withoutEntry, entryAt, GoMap.index]
  | cons e rest ih =>
    obtain ⟨a, components⟩ := e
    rw [withoutEntry_cons]
    unfold entryAt at ih ⊢
    rw [GoMap.index_cons, GoMap.index_cons]
    by_cases ham : a = m
    · subst ham
      by_cases ha : a = m₀
      · subst ha
        simp only [if_true, Option.some_bind, GoMap.index_delete, true_and]
      · simp [ha]
    · simp only [ham, if_false]
      exact ih

theorem evaluateComponents_withoutEntry (purl : component → String) (iq : IQ) (app : String)
    (manifests : Manifests) (hwf : Manifests.WF manifests) (m₀ : githubPullRequestFile)
    (p₀ : Int) (c₀ : component) (h₀ : entryAt manifests m₀ p₀ = some c₀)
    (hnone : remediationFor purl iq app c₀ = none) :
    evaluateComponents purl iq app (withoutEntry manifests m₀ p₀) =
      evaluateComponents purl iq app manifests := by
  rw [evaluateComponents_eq, evaluateComponents_eq, withoutEntry, List.foldl_map]
  congr 1
  apply List.foldl_ext
  intro acc mc hmc
  by_cases hm : mc.1 = m₀
  · simp only [hm, if_true]
    have hidx : GoMap.index manifests m₀ = some mc.2 := by
      apply GoMap.index_eq_some_of_mem _ hwf.1
      rw [← hm]
      exact hmc
    have hp : GoMap.index mc.2 p₀ = some c₀ := by
      simpa [entryAt, hidx] using h₀
    have hall : ∀ kv ∈ mc.2, kv.1 = p₀ → remediationFor purl iq app kv.2 = none := by
      intro kv hkv hk
      have hkv' : GoMap.index mc.2 p₀ = some kv.2 := by
        apply GoMap.index_eq_some_of_mem _ (hwf.2 mc hmc)
        rw [← hk]
        exact hkv
      rw [hp] at hkv'
      cases hkv'
      exact hnone
    simp only [recordStep, remediatedFor, foldl_recordStep_delete _ _ _ hall, hm]
  · simp only [hm, if_false]

/-! ## Claims on the pipeline -/

/-- C1 (empty-manifest omission): for every input mapping and every behaviour
of the policy engine, a manifest that is a key of the map returned by
`evaluateComponents` has a non-empty inner map; and a manifest all of whose
components fail evaluation or have no NoViolations remediation is not a key of
the result. -/
theorem evaluateComponents_omits_empty_manifests (purl : component → String) (iq : IQ)
    (app : String) (manifests : Manifests) (m : githubPullRequestFile) :
    (∀ inner, GoMap.index (evaluateComponents purl iq app manifests).1 m = some inner →
        GoMap.len inner > 0 ∧ inner ≠ []) ∧
    ((∀ components, (m, components) ∈ manifests → ∀ p c, (p, c) ∈ components →
        (∃ e, iq (evaluateComponents.asIQComponent purl c).1 StageBuild app = .error e) ∨
        (∃ r e, iq (evaluateComponents.asIQComponent purl c).1 StageBuild app = .ok r ∧
          r.ComponentForRemediationType RemediationTypeNoViolations = .error e)) →
      GoMap.index (evaluateComponents purl iq app manifests).1 m = none) := by
  constructor
  · intro inner h
    have hlen := (index_evaluateComponents_some purl iq app manifests m inner h).1
    refine ⟨hlen, ?_⟩
    intro hnil
    subst hnil
    simp [GoMap.len] at hlen
  · intro hall
    cases hidx : GoMap.index (evaluateComponents purl iq app manifests).1 m with
    | none => rfl
    | some inner =>
      exfalso
      obtain ⟨hlen, components, hin, hinner⟩ :=
        index_evaluateComponents_some purl iq app manifests m inner hidx
      cases hcases : inner with
      | nil => rw [hcases] at hlen; simp [GoMap.len] at hlen
      | cons e rest =>
        obtain ⟨p, x⟩ := e
        have hpx : GoMap.index inner p = some x := by
          rw [hcases]; simp [GoMap.index]
        rw [hinner] at hpx
        rcases index_foldl_recordStep_some _ _ _ _ _ hpx with hnil | ⟨c, hc, hf⟩
        · simp [GoMap.index] at hnil
        · obtain ⟨r, rc, hr, hrc, _⟩ := (remediationFor_eq_some purl iq app c x).mp hf
          rcases hall components hin p c hc with ⟨e, he⟩ | ⟨r', e, hr', he⟩
          · rw [hr] at he; cases he
          · rw [hr] at hr'; cases hr'
            rw [hrc] at he; cases he

/-- Witness of C1 on the two end-to-end scenarios: with a decision of zero
variants `package.json` is not a key of the result, and with one NoViolations
variant its inner map is not empty. -/
theorem evaluateComponents_omits_empty_manifests_witness :
    GoMap.index (evaluateComponents samplePurl (constIQ ⟨[]⟩) "app"
        [(packageJson, [(0, leftPad "1.0.0")])]).1 packageJson = none ∧
    GoMap.len [((0 : Int), leftPad "1.3.0")] > 0 :=
  ⟨(evaluateComponents_omits_empty_manifests samplePurl (constIQ ⟨[]⟩) "app"
      [(packageJson, [(0, leftPad "1.0.0")])] packageJson).2
      (fun _ _ _ _ _ => Or.inr ⟨⟨[]⟩, _, rfl, rfl⟩),
    ((evaluateComponents_omits_empty_manifests samplePurl
      (constIQ ⟨[⟨RemediationTypeNoViolations, leftPadIQ "1.3.0"⟩]⟩) "app"
      [(packageJson, [(0, leftPad "1.0.0")])] packageJson).1
      [(0, leftPad "1.3.0")] (by decide)).1⟩

/-- C2 (batch isolation): when the evaluation of the component at position
`p₀` of manifest `m₀` returns an error (in particular when it is the only
entry that does), the result of `evaluateComponents` still holds, for every
entry whose evaluation and NoViolations extraction succeed, the position under
its manifest mapped to the converted remediation component; and the result is
the one obtained from the input without the failing entry, an input that
differs from the given one at `(m₀, p₀)` only. -/
theorem evaluateComponents_batch_isolation (purl : component → String) (iq : IQ)
    (app : String) (manifests : Manifests) (hwf : Manifests.WF manifests)
    (m₀ : githubPullRequestFile) (p₀ : Int) (c₀ : component) (e : String)
    (h₀ : entryAt manifests m₀ p₀ = some c₀)
    (hfail : iq (evaluateComponents.asIQComponent purl c₀).1 StageBuild app = .error e) :
    (∀ m p c r rc, entryAt manifests m p = some c →
        iq (evaluateComponents.asIQComponent purl c).1 StageBuild app = .ok r →
        r.ComponentForRemediationType RemediationTypeNoViolations = .ok rc →
        entryAt (evaluateComponents purl iq app manifests).1 m p =
          some (evaluateComponents.asComponent rc).1) ∧
    evaluateComponents purl iq app manifests =
      evaluateComponents purl iq app (withoutEntry manifests m₀ p₀) ∧
    entryAt (withoutEntry manifests m₀ p₀) m₀ p₀ = none ∧
    (∀ m p, ¬ (m = m₀ ∧ p = p₀) →
      entryAt (withoutEntry manifests m₀ p₀) m p = entryAt manifests m p) := by
  refine ⟨?_, ?_, ?_, ?_⟩
  · intro m p c r rc hc hr hrc
    rw [entryAt_evaluateComponents purl iq app manifests hwf, hc, Option.some_bind]
    exact (remediationFor_eq_some purl iq app c _).mpr ⟨r, rc, hr, hrc, rfl⟩
  · have hnone : remediationFor purl iq app c₀ = none := by
      cases hx : remediationFor purl iq app c₀ with
      | none => rfl
      | some x =>
        obtain ⟨r, _, hr, _⟩ := (remediationFor_eq_some purl iq app c₀ x).mp hx
        rw [hfail] at hr
        cases hr
    exact (evaluateComponents_withoutEntry purl iq app manifests hwf m₀ p₀ c₀ h₀ hnone).symm
  · rw [entryAt_withoutEntry]
    simp
  · intro m p hne
    rw [entryAt_withoutEntry, if_neg hne]

/-- Witness of C2: of two components of `package.json` the first fails
evaluation, and the second is remediated all the same. -/
theorem evaluateComponents_batch_isolation_witness :
    Manifests.WF [(packageJson, [(0, leftPad "1.0.0"), (1, leftPad "1.1.0")])] ∧
    entryAt (evaluateComponents samplePurl selectiveIQ "app"
      [(packageJson, [(0, leftPad "1.0.0"), (1, leftPad "1.1.0")])]).1 packageJson 1 =
        some (leftPad "1.3.0") :=
  ⟨by decide,
    (evaluateComponents_batch_isolation samplePurl selectiveIQ "app"
      [(packageJson, [(0, leftPad "1.0.0"), (1, leftPad "1.1.0")])] (by decide)
      packageJson 0 (leftPad "1.0.0") "bad gateway" (by decide) rfl).1
      packageJson 1 (leftPad "1.1.0")
      ⟨[⟨RemediationTypeNoViolations, leftPadIQ "1.3.0"⟩]⟩ (leftPadIQ "1.3.0")
      (by decide) rfl rfl⟩

/-- C3 (exact characterisation of the pipeline result): for every well-formed
input mapping and every engine, `evaluateComponents` returns a nil error and a
map `R` in which `R[m][p]` is defined exactly when `manifests[m][p] = c` is
defined, the evaluation of `c` (the request that carries the package URL of
`c` and no structured identity, at stage build, for the application) succeeds
and the extraction of the NoViolations remediation succeeds, and then it is
the conversion of the extracted component. On `package.json` with
`left-pad 1.0.0` at position 0 and a decision with the single NoViolations
variant `left-pad 1.3.0`, the result is `package.json` with `left-pad 1.3.0`
at position 0. -/
theorem evaluateComponents_characterisation (purl : component → String) (iq : IQ)
    (app : String) (manifests : Manifests) (hwf : Manifests.WF manifests) :
    (evaluateComponents purl iq app manifests).2 = none ∧
    (∀ m p x, entryAt (evaluateComponents purl iq app manifests).1 m p = some x ↔
      ∃ c r rc, entryAt manifests m p = some c ∧
        iq ⟨none, purl c⟩ "build" app = .ok r ∧
        r.ComponentForRemediationType RemediationTypeNoViolations = .ok rc ∧
        x = (evaluateComponents.asComponent rc).1) ∧
    (∀ patch url,
      iq ⟨none, purl ⟨"npm", "", "left-pad", "1.0.0"⟩⟩ "build" app =
        .ok ⟨[⟨RemediationTypeNoViolations,
          ⟨some ⟨"npm", ⟨"", "left-pad", "1.3.0"⟩⟩, url⟩⟩]⟩ →
      evaluateComponents purl iq app
          [(⟨"package.json", patch⟩, [(0, ⟨"npm", "", "left-pad", "1.0.0"⟩)])] =
        ([(⟨"package.json", patch⟩, [(0, ⟨"npm", "", "left-pad", "1.3.0"⟩)])], none)) := by
  refine ⟨rfl, ?_, ?_⟩
  · intro m p x
    rw [entryAt_evaluateComponents purl iq app manifests hwf]
    cases hc : entryAt manifests m p with
    | none => simp
    | some c =>
      rw [Option.some_bind, remediationFor_eq_some]
      constructor
      · rintro ⟨r, rc, hr, hrc, hx⟩
        exact ⟨c, r, rc, rfl, hr, hrc, hx⟩
      · rintro ⟨c', r, rc, hc', hr, hrc, hx⟩
        cases hc'
        exact ⟨r, rc, hr, hrc, hx⟩
  · intro patch url h
    simp [evaluateComponents, GetRemediationByApp, evaluateComponents.asIQComponent,
      StageBuild, h, Remediation.ComponentForRemediationType,
      evaluateComponents.asComponent, GoMap.assign, GoMap.len]

/-- Witness of C3: the end-to-end scenario of the spec, with an engine that
reads the package URL of the request: the entry of `left-pad 1.0.0` is recorded
as `left-pad 1.3.0`, and the entry of another component, whose request the
engine rejects, is not recorded. -/
theorem evaluateComponents_characterisation_witness :
    Manifests.WF [(packageJson, [(0, leftPad "1.0.0")])] ∧
    evaluateComponents samplePurl leftPadOnlyIQ "app"
        [(packageJson, [(0, leftPad "1.0.0")])] =
      ([(packageJson, [(0, leftPad "1.3.0")])], none) ∧
    Manifests.WF [(packageJson, [(0, leftPad "1.0.0"), (1, leftPad "1.1.0")])] ∧
    (entryAt (evaluateComponents samplePurl leftPadOnlyIQ "app"
        [(packageJson, [(0, leftPad "1.0.0"), (1, leftPad "1.1.0")])]).1 packageJson 0 =
        some (leftPad "1.3.0") ↔
      ∃ c r rc,
        entryAt [(packageJson, [(0, leftPad "1.0.0"), (1, leftPad "1.1.0")])]
          packageJson 0 = some c ∧
        leftPadOnlyIQ ⟨none, samplePurl c⟩ "build" "app" = .ok r ∧
        r.ComponentForRemediationType RemediationTypeNoViolations = .ok rc ∧
        leftPad "1.3.0" = (evaluateComponents.asComponent rc).1) ∧
    entryAt (evaluateComponents samplePurl leftPadOnlyIQ "app"
        [(packageJson, [(0, leftPad "1.0.0"), (1, leftPad "1.1.0")])]).1 packageJson 1 =
      none :=
  ⟨by decide,
    (evaluateComponents_characterisation samplePurl leftPadOnlyIQ "app"
      [(packageJson, [(0, leftPad "1.0.0")])] (by decide)).2.2 "" "" rfl,
    by decide,
    (evaluateComponents_characterisation samplePurl leftPadOnlyIQ "app"
      [(packageJson, [(0, leftPad "1.0.0"), (1, leftPad "1.1.0")])] (by decide)).2.1
      packageJson 0 (leftPad "1.3.0"),
    by decide⟩

/-- C5 (identity round-trip): `asComponent` applied to a policy-engine
component whose structured identity carries the format, group, artifact and
version of a component `c` returns `c`, each field in the field it came from;
this holds for every `c`, hence for those with four non-empty fields. -/
theorem asComponent_roundtrip (c : component) (url : String) :
    evaluateComponents.asComponent
      ⟨some ⟨c.format, ⟨c.group, c.artifact, c.version⟩⟩, url⟩ = (c, none) := rfl

/-- C6 (no-violation selection): on a decision whose variants are one of
another type carrying `X` followed by the NoViolations one carrying `Y`, the
extraction returns `Y` and the pipeline records the conversion of `Y` at the
position; on a decision with no NoViolations variant the extraction fails with
the not-found error and the pipeline records nothing at the position. -/
theorem noViolations_selection (purl : component → String) (iq : IQ) (app : String)
    (manifests : Manifests) (hwf : Manifests.WF manifests) (m : githubPullRequestFile)
    (p : Int) (c : component) (hc : entryAt manifests m p = some c) :
    (∀ t X Y, t ≠ RemediationTypeNoViolations →
      (Remediation.mk [⟨t, X⟩, ⟨RemediationTypeNoViolations, Y⟩]).ComponentForRemediationType
          RemediationTypeNoViolations = .ok Y ∧
      (iq (evaluateComponents.asIQComponent purl c).1 StageBuild app =
          .ok ⟨[⟨t, X⟩, ⟨RemediationTypeNoViolations, Y⟩]⟩ →
        entryAt (evaluateComponents purl iq app manifests).1 m p =
          some (evaluateComponents.asComponent Y).1)) ∧
    (∀ r : Remediation, (∀ v ∈ r.VersionChanges, v.remediationType ≠ RemediationTypeNoViolations) →
      r.ComponentForRemediationType RemediationTypeNoViolations =
          .error ("did not find remediation type: " ++ RemediationTypeNoViolations) ∧
      (iq (evaluateComponents.asIQComponent purl c).1 StageBuild app = .ok r →
        entryAt (evaluateComponents purl iq app manifests).1 m p = none)) := by
  have hsel : ∀ t X Y, t ≠ RemediationTypeNoViolations →
      (Remediation.mk [⟨t, X⟩, ⟨RemediationTypeNoViolations, Y⟩]).ComponentForRemediationType
          RemediationTypeNoViolations = .ok Y := by
    intro t X Y ht
    simp [Remediation.ComponentForRemediationType, List.find?, ht]
  have hmiss : ∀ r : Remediation,
      (∀ v ∈ r.VersionChanges, v.remediationType ≠ RemediationTypeNoViolations) →
      r.ComponentForRemediationType RemediationTypeNoViolations =
          .error ("did not find remediation type: " ++ RemediationTypeNoViolations) := by
    intro r hr
    have hfind : r.VersionChanges.find?
        (fun v => decide (v.remediationType = RemediationTypeNoViolations)) = none := by
      rw [List.find?_eq_none]
      intro v hv
      simpa using hr v hv
    simp [Remediation.ComponentForRemediationType, hfind]
  constructor
  · intro t X Y ht
    refine ⟨hsel t X Y ht, ?_⟩
    intro hiq
    rw [entryAt_evaluateComponents purl iq app manifests hwf, hc, Option.some_bind]
    exact (remediationFor_eq_some purl iq app c _).mpr ⟨_, Y, hiq, hsel t X Y ht, rfl⟩
  · intro r hr
    refine ⟨hmiss r hr, ?_⟩
    intro hiq
    rw [entryAt_evaluateComponents purl iq app manifests hwf, hc, Option.some_bind]
    cases hx : remediationFor purl iq app c with
    | none => rfl
    | some x =>
      obtain ⟨r', rc, hr', hrc, _⟩ := (remediationFor_eq_some purl iq app c x).mp hx
      rw [hiq] at hr'
      cases hr'
      rw [hmiss r hr] at hrc
      cases hrc

/-- Witness of C6: a decision with a variant of another type for version
`1.2.0` and the NoViolations variant for version `1.3.0` records `1.3.0`. -/
theorem noViolations_selection_witness :
    Manifests.WF [(packageJson, [(0, leftPad "1.0.0")])] ∧
    entryAt (evaluateComponents samplePurl
      (constIQ ⟨[⟨"next-non-failing", leftPadIQ "1.2.0"⟩,
        ⟨RemediationTypeNoViolations, leftPadIQ "1.3.0"⟩]⟩) "app"
      [(packageJson, [(0, leftPad "1.0.0")])]).1 packageJson 0 = some (leftPad "1.3.0") :=
  ⟨by decide,
    ((noViolations_selection samplePurl
      (constIQ ⟨[⟨"next-non-failing", leftPadIQ "1.2.0"⟩,
        ⟨RemediationTypeNoViolations, leftPadIQ "1.3.0"⟩]⟩) "app"
      [(packageJson, [(0, leftPad "1.0.0")])] (by decide) packageJson 0 (leftPad "1.0.0")
      (by decide)).1 "next-non-failing" (leftPadIQ "1.2.0") (leftPadIQ "1.3.0")
      (by decide)).2 rfl⟩

/-- C8 (fail-open on a missing structured identity): when the evaluation of an
entry succeeds and the extracted NoViolations component has a nil
`ComponentID`, `evaluateComponents` does not skip the entry: the result holds
the position under the manifest, mapped to the zero-value component with four
empty fields, so the manifest is a key of the result. -/
theorem evaluateComponents_fail_open (purl : component → String) (iq : IQ) (app : String)
    (manifests : Manifests) (hwf : Manifests.WF manifests) (m : githubPullRequestFile)
    (p : Int) (c : component) (r : Remediation) (rc : IQComponent)
    (hc : entryAt manifests m p = some c)
    (hr : iq (evaluateComponents.asIQComponent purl c).1 StageBuild app = .ok r)
    (hrc : r.ComponentForRemediationType RemediationTypeNoViolations = .ok rc)
    (hid : rc.ComponentID = none) :
    entryAt (evaluateComponents purl iq app manifests).1 m p = some ⟨"", "", "", ""⟩ ∧
    ∃ inner, GoMap.index (evaluateComponents purl iq app manifests).1 m = some inner ∧
      GoMap.index inner p = some ⟨"", "", "", ""⟩ := by
  have hentry : entryAt (evaluateComponents purl iq app manifests).1 m p =
      some ⟨"", "", "", ""⟩ := by
    rw [entryAt_evaluateComponents purl iq app manifests hwf, hc, Option.some_bind]
    refine (remediationFor_eq_some purl iq app c _).mpr ⟨r, rc, hr, hrc, ?_⟩
    simp [evaluateComponents.asComponent, hid, component.zero]
  refine ⟨hentry, ?_⟩
  unfold entryAt at hentry
  cases hidx : GoMap.index (evaluateComponents purl iq app manifests).1 m with
  | none => rw [hidx] at hentry; cases hentry
  | some inner =>
    rw [hidx] at hentry
    exact ⟨inner, rfl, hentry⟩

/-- Witness of C8: the only component of `package.json` is answered with a
NoViolations variant that has no structured identity. -/
theorem evaluateComponents_fail_open_witness :
    Manifests.WF [(packageJson, [(0, leftPad "1.0.0")])] ∧
    entryAt (evaluateComponents samplePurl
      (constIQ ⟨[⟨RemediationTypeNoViolations, ⟨none, "pkg:npm/left-pad@1.3.0"⟩⟩]⟩) "app"
      [(packageJson, [(0, leftPad "1.0.0")])]).1 packageJson 0 = some ⟨"", "", "", ""⟩ :=
  ⟨by decide,
    (evaluateComponents_fail_open samplePurl
      (constIQ ⟨[⟨RemediationTypeNoViolations, ⟨none, "pkg:npm/left-pad@1.3.0"⟩⟩]⟩) "app"
      [(packageJson, [(0, leftPad "1.0.0")])] (by decide) packageJson 0 (leftPad "1.0.0")
      ⟨[⟨RemediationTypeNoViolations, ⟨none, "pkg:npm/left-pad@1.3.0"⟩⟩]⟩
      ⟨none, "pkg:npm/left-pad@1.3.0"⟩ (by decide) rfl rfl rfl).1⟩

/-! ## Claims on the request handler -/

theorem append_newline_ne_empty (a : String) : a ++ "\n" ≠ "" := by
  intro h
  have hlen := congrArg String.length h
  rw [String.length_append] at hlen
  have h₁ : "\n".length = 1 := by decide
  have h₀ : "".length = 0 := by decide
  omega

theorem requestError_of_ne (env : Env) (status : Int) (msg : String) (h : msg ≠ "") :
    requestError env status msg = ⟨status, msg⟩ := by
  simp [requestError, h]

/-- C4 (event discrimination): when the event type is `ping`,
`getGitHubPullRequest` returns a response of status 200 and
`handleLambdaEvent` returns it having made none of the calls (file retrieval,
client construction, `evaluateComponents`, comment posting); when the event
type is neither `ping` nor `pull_request`, the response has status 400 and no
call is made either, whatever the request body is. -/
theorem event_discrimination (env : Env) (req : APIGatewayProxyRequest) :
    (env.getGitHubEventType req.Headers = .ok "ping" →
      ∀ body, ∃ resp,
        (getGitHubPullRequest env ⟨req.Headers, req.QueryStringParameters, body⟩).2 =
          some resp ∧
        resp.StatusCode = 200 ∧
        handleLambdaEvent env ⟨req.Headers, req.QueryStringParameters, body⟩ =
          (.returned resp none, [])) ∧
    (∀ t, env.getGitHubEventType req.Headers = .ok t → t ≠ "ping" → t ≠ "pull_request" →
      ∀ body, ∃ resp,
        (getGitHubPullRequest env ⟨req.Headers, req.QueryStringParameters, body⟩).2 =
          some resp ∧
        resp.StatusCode = 400 ∧
        handleLambdaEvent env ⟨req.Headers, req.QueryStringParameters, body⟩ =
          (.returned resp none, [])) := by
  constructor
  · intro h body
    refine ⟨⟨StatusOK, ""⟩, ?_, rfl, ?_⟩
    · simp [getGitHubPullRequest, h]
    · simp [handleLambdaEvent, handleLambdaEventWith, getGitHubPullRequest, h]
  · intro t h hping hpr body
    refine ⟨requestError env StatusBadRequest "did not receive a supported github event",
      ?_, rfl, ?_⟩
    · simp [getGitHubPullRequest, h, hping, hpr]
    · simp [handleLambdaEvent, handleLambdaEventWith, getGitHubPullRequest, h, hping, hpr]

/-- Witness of C4: a `ping` request is answered with 200 and a `push` request
with 400, no call being made. -/
theorem event_discrimination_witness :
    handleLambdaEvent (sampleEnv (.ok [packageJson]) acceptClient none)
        (sampleRequest "ping" (some "admin:admin123")) =
      (.returned ⟨200, ""⟩ none, []) ∧
    handleLambdaEvent (sampleEnv (.ok [packageJson]) acceptClient none)
        (sampleRequest "push" (some "admin:admin123")) =
      (.returned ⟨400, "did not receive a supported github event"⟩ none, []) := by
  obtain ⟨r₁, h₁, _, h₁'⟩ :=
    (event_discrimination (sampleEnv (.ok [packageJson]) acceptClient none)
      (sampleRequest "ping" (some "admin:admin123"))).1 rfl "payload=%7B%7D"
  obtain ⟨r₂, h₂, _, h₂'⟩ :=
    (event_discrimination (sampleEnv (.ok [packageJson]) acceptClient none)
      (sampleRequest "push" (some "admin:admin123"))).2 "push" rfl (by decide) (by decide)
      "payload=%7B%7D"
  have e₁ : r₁ = ⟨200, ""⟩ := (Option.some.inj h₁).symm
  have e₂ : r₂ = ⟨400, "did not receive a supported github event"⟩ :=
    (Option.some.inj h₂).symm
  subst e₁
  subst e₂
  exact ⟨h₁', h₂'⟩

/-- C7 (downstream failures map to 500 with a diagnostic body): on a
`pull_request` request that passes event parsing, if retrieving the changed
files fails, or the client constructor is called and fails, or the pipeline
returns an error, the handler returns, with a nil error, a response of status
500 whose body is a non-empty message ending in the text of the underlying
error; `requestError` keeps the status, and its body is the message when the
message is not empty and the standard status text when it is. The pipeline is
a parameter here: `handleLambdaEvent` is the instance with
`evaluateComponents`, which never returns an error. -/
theorem downstream_failures_are_500
    (evaluate : IQ → String → Manifests → Manifests × Option String) (env : Env)
    (req : APIGatewayProxyRequest) (event : githubPullRequest)
    (hparse : getGitHubPullRequest env req = (event, none)) :
    (∀ e, env.getPullRequestFiles event (stringAt req.QueryStringParameters "token") =
        .error e →
      (handleLambdaEventWith evaluate env req).1 =
        .returned ⟨500, "could not get files from pull request: " ++ e ++ "\n"⟩ none ∧
      "could not get files from pull request: " ++ e ++ "\n" ≠ "") ∧
    (∀ files user password rest e,
      env.getPullRequestFiles event (stringAt req.QueryStringParameters "token") =
        .ok files →
      stringsSplit (stringAt req.QueryStringParameters "iq_auth") ':' =
        user :: password :: rest →
      env.nexusiqNew (stringAt req.QueryStringParameters "iq_server") user password =
        .error e →
      (handleLambdaEventWith evaluate env req).1 =
        .returned ⟨500, "could not create IQ client: " ++ e ++ "\n"⟩ none ∧
      "could not create IQ client: " ++ e ++ "\n" ≠ "") ∧
    (∀ files user password rest iq remediations e,
      env.getPullRequestFiles event (stringAt req.QueryStringParameters "token") =
        .ok files →
      stringsSplit (stringAt req.QueryStringParameters "iq_auth") ':' =
        user :: password :: rest →
      env.nexusiqNew (stringAt req.QueryStringParameters "iq_server") user password =
        .ok iq →
      evaluate iq (stringAt req.QueryStringParameters "iq_app")
        (findComponentsFromManifest files).1 = (remediations, some e) →
      (handleLambdaEventWith evaluate env req).1 =
        .returned ⟨500, "could not evaluate components: " ++ e ++ "\n"⟩ none ∧
      "could not evaluate components: " ++ e ++ "\n" ≠ "") ∧
    (∀ status msg,
      (requestError env status msg).StatusCode = status ∧
      (msg ≠ "" → (requestError env status msg).Body = msg) ∧
      (msg = "" → (requestError env status msg).Body = env.statusText status)) := by
  refine ⟨?_, ?_, ?_, ?_⟩
  · intro e hfiles
    refine ⟨?_, append_newline_ne_empty _⟩
    simp only [handleLambdaEventWith, hparse, hfiles]
    rw [requestError_of_ne _ _ _ (append_newline_ne_empty _)]
    rfl
  · intro files user password rest e hfiles hsplit hnew
    refine ⟨?_, append_newline_ne_empty _⟩
    simp only [handleLambdaEventWith, hparse, hfiles, findComponentsFromManifest, hsplit,
      List.get?_cons_zero, List.get?_cons_succ, hnew]
    rw [requestError_of_ne _ _ _ (append_newline_ne_empty _)]
    rfl
  · intro files user password rest iq remediations e hfiles hsplit hnew heval
    refine ⟨?_, append_newline_ne_empty _⟩
    simp only [findComponentsFromManifest] at heval
    simp only [handleLambdaEventWith, hparse, hfiles, findComponentsFromManifest, hsplit,
      List.get?_cons_zero, List.get?_cons_succ, hnew, heval]
    rw [requestError_of_ne _ _ _ (append_newline_ne_empty _)]
    rfl
  · intro status msg
    refine ⟨rfl, ?_, ?_⟩
    · intro h; simp [requestError, h]
    · intro h; simp [requestError, h]

/-- Witness of C7: a failing file retrieval, a failing client constructor and
a failing pipeline, each answered with status 500 and the error text. -/
theorem downstream_failures_are_500_witness :
    (handleLambdaEvent (sampleEnv (.error "404 Not Found") acceptClient none)
        (sampleRequest "pull_request" (some "admin:admin123"))).1 =
      .returned ⟨500, "could not get files from pull request: 404 Not Found\n"⟩ none ∧
    (handleLambdaEvent (sampleEnv (.ok [packageJson]) echoClient none)
        (sampleRequest "pull_request" (some "admin:admin123"))).1 =
      .returned ⟨500, "could not create IQ client: user=admin password=admin123\n"⟩ none ∧
    (handleLambdaEventWith failingPipeline (sampleEnv (.ok [packageJson]) acceptClient none)
        (sampleRequest "pull_request" (some "admin:admin123"))).1 =
      .returned ⟨500, "could not evaluate components: engine unreachable\n"⟩ none :=
  ⟨((downstream_failures_are_500 (evaluateComponents samplePurl)
      (sampleEnv (.error "404 Not Found") acceptClient none)
      (sampleRequest "pull_request" (some "admin:admin123")) default rfl).1
      "404 Not Found" rfl).1,
    ((downstream_failures_are_500 (evaluateComponents samplePurl)
      (sampleEnv (.ok [packageJson]) echoClient none)
      (sampleRequest "pull_request" (some "admin:admin123")) default rfl).2.1
      [packageJson] "admin" "admin123" [] "user=admin password=admin123" rfl (by decide)
      rfl).1,
    ((downstream_failures_are_500 failingPipeline
      (sampleEnv (.ok [packageJson]) acceptClient none)
      (sampleRequest "pull_request" (some "admin:admin123")) default rfl).2.2.1
      [packageJson] "admin" "admin123" [] failingIQ [] "engine unreachable" rfl (by decide)
      rfl rfl).1⟩

/-- The nil result of `addRemediationsToPR`: whenever posting the comment
fails, the function returns the nil pointer. -/
theorem addRemediationsToPR_nil (env : Env) (token : String) (event : githubPullRequest)
    (remediations : Manifests) (e : String)
    (h : env.addPullRequestComment event token "THINGY" = some e) :
    addRemediationsToPR env token event remediations = none := by
  simp [addRemediationsToPR, h]

/-- C9 (the handler always yields a response) fails on the code: on a
`pull_request` request for which parsing, file retrieval, client construction
and evaluation succeed and posting the comment fails, `addRemediationsToPR`
returns the nil pointer and `handleLambdaEvent` panics on dereferencing it,
after all four calls were made. -/
theorem handleLambdaEvent_nil_dereference :
    addRemediationsToPR (sampleEnv (.ok [packageJson]) acceptClient (some "403 Forbidden"))
      "t0" default [] = none ∧
    handleLambdaEvent (sampleEnv (.ok [packageJson]) acceptClient (some "403 Forbidden"))
        (sampleRequest "pull_request" (some "admin:admin123")) =
      (.panicked .nilDereference,
        [.getPullRequestFiles, .nexusiqNew, .evaluateComponents, .addPullRequestComment]) ∧
    handleLambdaEvent (sampleEnv (.ok [packageJson]) acceptClient none)
        (sampleRequest "pull_request" (some "admin:admin123")) =
      (.returned ⟨200, ""⟩ none,
        [.getPullRequestFiles, .nexusiqNew, .evaluateComponents, .addPullRequestComment]) :=
  ⟨rfl, rfl, rfl⟩

/-- C10 (the credential split is in bounds and faithful) fails on the code:
splitting an absent or colon-free `iq_auth` yields one part, and
`handleLambdaEvent` panics on reading `iqAuth[1]` before the client is
constructed; and for a password that contains a colon the client is
constructed with the text between the first and the second colon only. -/
theorem handleLambdaEvent_credential_split :
    stringsSplit "" ':' = [""] ∧
    stringsSplit "admin" ':' = ["admin"] ∧
    stringsSplit "admin:pa:ss" ':' = ["admin", "pa", "ss"] ∧
    handleLambdaEvent (sampleEnv (.ok [packageJson]) acceptClient none)
        (sampleRequest "pull_request" none) =
      (.panicked (.indexOutOfRange 1 1), [.getPullRequestFiles]) ∧
    handleLambdaEvent (sampleEnv (.ok [packageJson]) acceptClient none)
        (sampleRequest "pull_request" (some "admin")) =
      (.panicked (.indexOutOfRange 1 1), [.getPullRequestFiles]) ∧
    handleLambdaEvent (sampleEnv (.ok [packageJson]) echoClient none)
        (sampleRequest "pull_request" (some "admin:pa:ss")) =
      (.returned ⟨500, "could not create IQ client: user=admin password=pa\n"⟩ none,
        [.getPullRequestFiles, .nexusiqNew]) :=
  ⟨by decide, by decide, by decide, rfl, rfl, rfl⟩

end IqMerge
